import Mathlib

/-!
Verification of the matrix-health federation monitor (`main.go`).

Go strings are embedded as `List Char` (`Str`).  The network is embedded as an
oracle environment (`NetEnv`): each HTTP GET and each DNS SRV lookup is a pure
function of the request, and every network-performing function additionally
returns the list of network calls it issued, so that claims of the form
"X is never invoked" or "no retries are performed" become statements about the
returned call trace.
-/

namespace MatrixHealth

/-- Go strings, embedded as lists of characters. -/
abbrev Str := List Char

/-- Embed a Lean string literal as a `Str`. -/
def strLit (s : String) : Str := s.toList

/-- Go `strings.Split(s, sep)` for a single-character separator:
splits around every occurrence of `sep`; the empty string yields `[""]`. -/
def goSplitChar (sep : Char) : Str → List Str
  | [] => [[]]
  | c :: rest =>
    if c = sep then
      [] :: goSplitChar sep rest
    else
      match goSplitChar sep rest with
      | [] => [[c]]
      | p :: ps => (c :: p) :: ps

/-- Go `strings.Trim(s, cutset)` for the single-character cutset:
removes every leading and trailing occurrence of `cut`. -/
def goTrim (s : Str) (cut : Char) : Str :=
  ((s.dropWhile (fun c => c = cut)).reverse.dropWhile (fun c => c = cut)).reverse

/-- Go `strings.HasPrefix(s, pre)`. -/
def goStartsWith : Str → Str → Bool
  | _, [] => true
  | [], _ :: _ => false
  | c :: cs, p :: ps => c = p && goStartsWith cs ps

/-- Go `strings.Join(elems, sep)`. -/
def goJoin (elems : List Str) (sep : Str) : Str :=
  match elems with
  | [] => []
  | [x] => x
  | x :: xs => x ++ sep ++ goJoin xs sep

/-- Go `fmt.Sprintf("%d", n)` for a natural number. -/
def natStr (n : Nat) : Str := strLit (Nat.repr n)

/-- `extractDomain` from `main.go`: `strings.Split(userID, ":")`, returning
`parts[1]` when there is more than one part and `""` otherwise. -/
def extractDomain (userID : Str) : Str :=
  let parts := goSplitChar ':' userID
  if 1 < parts.length then parts.getD 1 [] else []

/-- An HTTP GET request: the URL and the client timeout in seconds
(`none` for Go's default client, which sets no timeout). -/
structure Request where
  url : Str
  timeoutSeconds : Option Nat
deriving DecidableEq

/-- The observable outcome of an HTTP response body, at the granularity the
program inspects it: `statusCode` is `resp.StatusCode`; `bodyMServer` is the
result of `json.Decode` into `struct { Server string `json:"m.server"` }`
(`none` when the decode errors, otherwise the decoded `m.server` field, which
is `""` when absent); `bodyIsJsonObject` records whether `json.Decode` into
`map[string]interface{}` succeeds. -/
structure HttpResponse where
  statusCode : Nat
  bodyMServer : Option Str
  bodyIsJsonObject : Bool
deriving DecidableEq

/-- A DNS SRV record as used by the program: target host and port. -/
structure SRVRecord where
  target : Str
  port : Nat
deriving DecidableEq

/-- A network operation performed by the program. -/
inductive NetCall where
  | httpGet : Request → NetCall
  | lookupSRV : Str → Str → Str → NetCall
deriving DecidableEq

/-- The network oracle: what each HTTP GET returns (`none` = transport error
or timeout, i.e. Go `err != nil`) and what each SRV lookup returns
(`none` = lookup error). -/
structure NetEnv where
  httpGet : Request → Option HttpResponse
  lookupSRV : Str → Str → Str → Option (List SRVRecord)

/-- URL of the well-known delegation document for a server name. -/
def wellKnownURL (server : Str) : Str :=
  strLit "https://" ++ server ++ strLit "/.well-known/matrix/server"

/-- The well-known GET: issued with `http.Get`, i.e. the default client with
no explicit timeout. -/
def wellKnownReq (server : Str) : Request :=
  ⟨wellKnownURL server, none⟩

/-- Steps 2 and 3 of `resolveMatrixServer`: the SRV lookup for
`_matrix._tcp.{server}` and, when it yields no usable record, the
`{server}:8448` default.  Mirrors lines 104-112 of `main.go`. -/
def srvFallback (env : NetEnv) (server : Str) : Except Str Str × List NetCall :=
  let call := NetCall.lookupSRV (strLit "matrix") (strLit "tcp") server
  match env.lookupSRV (strLit "matrix") (strLit "tcp") server with
  | some (srv :: _) =>
    (Except.ok (goTrim srv.target '.' ++ strLit ":" ++ natStr srv.port), [call])
  | some [] => (Except.ok (server ++ strLit ":8448"), [call])
  | none => (Except.ok (server ++ strLit ":8448"), [call])

/-- `resolveMatrixServer` from `main.go` (lines 86-113), returning the Go
`(string, error)` result as an `Except` together with the trace of network
calls made.  Step 1 tries the well-known document: on transport error,
status other than `http.StatusOK` (200), JSON decode error, or empty
`m.server`, control falls through to `srvFallback`. -/
def resolveMatrixServer (env : NetEnv) (server : Str) : Except Str Str × List NetCall :=
  let wkCall := NetCall.httpGet (wellKnownReq server)
  match env.httpGet (wellKnownReq server) with
  | some resp =>
    if resp.statusCode = 200 then
      match resp.bodyMServer with
      | some s =>
        if s = [] then
          let (r, calls) := srvFallback env server
          (r, wkCall :: calls)
        else
          (Except.ok s, [wkCall])
      | none =>
        let (r, calls) := srvFallback env server
        (r, wkCall :: calls)
    else
      let (r, calls) := srvFallback env server
      (r, wkCall :: calls)
  | none =>
    let (r, calls) := srvFallback env server
    (r, wkCall :: calls)

/-- URL of the federation version endpoint for a resolved target. -/
def versionURL (target : Str) : Str :=
  strLit "https://" ++ target ++ strLit "/_matrix/federation/v1/version"

/-- The probe GET: issued by a client with `Timeout: 5 * time.Second`. -/
def versionReq (target : Str) : Request :=
  ⟨versionURL target, some 5⟩

/-- `checkServerOnline` from `main.go` (lines 247-267): one GET against the
version endpoint with the 5-second client; `false` on transport error or when
the body does not decode as a JSON object, `true` otherwise. -/
def checkServerOnline (env : NetEnv) (server : Str) : Bool × List NetCall :=
  match env.httpGet (versionReq server) with
  | none => (false, [NetCall.httpGet (versionReq server)])
  | some resp => (resp.bodyIsJsonObject, [NetCall.httpGet (versionReq server)])

/-- `checkServer` from `main.go` (lines 225-235): resolve, then probe. -/
def checkServer (env : NetEnv) (server : Str) : Str × List NetCall :=
  match resolveMatrixServer env server with
  | (Except.error e, calls) =>
    (strLit "Failed (Delegation Failed: " ++ e ++ strLit ")", calls)
  | (Except.ok target, calls) =>
    let (online, probeCalls) := checkServerOnline env target
    (if online then strLit "OK" else strLit "Failed (Unreachable)", calls ++ probeCalls)

/-- `fmt.Sprintf("%s - %s", server, status)`: one line of the status lists. -/
def statusLine (server status : Str) : Str :=
  server ++ strLit " - " ++ status

/-- The per-member loop of `runServerCheckLoop` (lines 155-166 of `main.go`):
iterating over the joined members (in map-iteration order, supplied here as a
list), it builds the full `serverStatus` list and the `failedServers` list. -/
def memberLoop (env : NetEnv) : List Str → List Str × List Str
  | [] => ([], [])
  | userID :: rest =>
    let server := extractDomain userID
    let status := (checkServer env server).1
    let line := statusLine server status
    let (ss, fs) := memberLoop env rest
    (line :: ss, if goStartsWith status (strLit "Failed") then line :: fs else fs)

/-- The collaborator oracle for room data: `details roomID` is the
`(alias, title)` pair produced by `getRoomDetails` (which never fails:
it substitutes fallbacks internally), and `joinedMembers roomID` is the
member list of `client.JoinedMembers`, `none` on error. -/
structure RoomOracle where
  details : Str → Str × Str
  joinedMembers : Str → Option (List Str)

/-- `fmt.Sprintf("%s - %s ( %s )", roomAlias, roomTitle, roomID)`. -/
def roomDescription (oracle : RoomOracle) (roomID : Str) : Str :=
  let (roomAlias, roomTitle) := oracle.details roomID
  roomAlias ++ strLit " - " ++ roomTitle ++ strLit " ( " ++ roomID ++ strLit " )"

/-- The failure message sent to the log room (line 174 of `main.go`). -/
def failedMessage (desc : Str) (failed : List Str) : Str :=
  strLit "Failed servers in room " ++ desc ++ strLit ":\n" ++ goJoin failed (strLit "\n")

/-- The all-OK message sent to the log room (line 178 of `main.go`). -/
def allOkMessage (desc : Str) : Str :=
  strLit "All Servers in room " ++ desc ++ strLit " are OK"

/-- Lines 168-180 of `main.go`: the single message the room sweep sends to
the log room (the full status list goes to the console only). -/
def roomReport (env : NetEnv) (desc : Str) (members : List Str) : Str :=
  let (_, failed) := memberLoop env members
  if 0 < failed.length then failedMessage desc failed else allOkMessage desc

/-- Lines 130-180 of `main.go`, for one room: skip the log room, skip rooms
whose member fetch fails (after the `continue` no message is sent), otherwise
send exactly one report.  The result is the list of `(roomID, text)` messages
sent via `sendMessageToRoom`. -/
def processRoom (env : NetEnv) (oracle : RoomOracle) (logRoom roomID : Str) :
    List (Str × Str) :=
  if roomID = logRoom then []
  else
    match oracle.joinedMembers roomID with
    | none => []
    | some members =>
      [(logRoom, roomReport env (roomDescription oracle roomID) members)]

/-- One sweep over the joined-rooms list: all messages sent, in order. -/
def sweepRooms (env : NetEnv) (oracle : RoomOracle) (logRoom : Str) :
    List Str → List (Str × Str)
  | [] => []
  | r :: rs => processRoom env oracle logRoom r ++ sweepRooms env oracle logRoom rs

/-- The well-known step of `resolveMatrixServer` falls through: transport
error, status other than 200, JSON decode error, or empty `m.server`. -/
def wellKnownFails (env : NetEnv) (server : Str) : Prop :=
  env.httpGet (wellKnownReq server) = none ∨
  ∃ resp, env.httpGet (wellKnownReq server) = some resp ∧
    (resp.statusCode ≠ 200 ∨ resp.bodyMServer = none ∨ resp.bodyMServer = some [])

/-- The SRV step of `resolveMatrixServer` yields no usable record. -/
def srvFails (env : NetEnv) (server : Str) : Prop :=
  env.lookupSRV (strLit "matrix") (strLit "tcp") server = none ∨
  env.lookupSRV (strLit "matrix") (strLit "tcp") server = some []

/-- Modelled from the spec: the spec's step-2 transformation of the SRV
target, "strip any trailing dot from its target host" — trailing dots only,
leading characters untouched.  Used to compare the spec's words with the
source's `strings.Trim(srv.Target, ".")`. -/
def specStripTrailing (s : Str) (cut : Char) : Str :=
  (s.reverse.dropWhile (fun c => c = cut)).reverse

/-- The failure entries of a member list: one `"{domain} - {status}"` line for
each member whose check status starts with `"Failed"`. -/
def failedEntries (env : NetEnv) (members : List Str) : List Str :=
  members.filterMap (fun userID =>
    let server := extractDomain userID
    let status := (checkServer env server).1
    if goStartsWith status (strLit "Failed") then some (statusLine server status)
    else none)

/-- A network oracle on which every HTTP GET and every SRV lookup errors. -/
def envAllDown : NetEnv :=
  ⟨fun _ => none, fun _ _ _ => none⟩

/-! ## General lemmas -/

theorem goSplitChar_not_mem {sep : Char} {s : Str} (h : sep ∉ s) :
    goSplitChar sep s = [s] := by
  induction s with
  | nil => rfl
  | cons c rest ih =>
    have hc : ¬ c = sep := by
      intro hcs
      exact h (by simp [hcs])
    have hr : sep ∉ rest := fun hm => h (List.mem_cons_of_mem _ hm)
    simp only [goSplitChar, if_neg hc, ih hr]

theorem goSplitChar_append {sep : Char} {a : Str} (r : Str) (h : sep ∉ a) :
    goSplitChar sep (a ++ sep :: r) = a :: goSplitChar sep r := by
  induction a with
  | nil => simp [goSplitChar]
  | cons c a2 ih =>
    have hc : ¬ c = sep := by
      intro hcs
      exact h (by simp [hcs])
    have ha : sep ∉ a2 := fun hm => h (List.mem_cons_of_mem _ hm)
    simp only [List.cons_append, goSplitChar, if_neg hc, List.append_eq, ih ha]

theorem resolve_fst_of_wellKnownFails (env : NetEnv) (server : Str)
    (hwk : wellKnownFails env server) :
    (resolveMatrixServer env server).1 = (srvFallback env server).1 := by
  rcases hfb : srvFallback env server with ⟨fres, fcalls⟩
  rcases hwk with hnone | ⟨resp, hresp, hfail⟩
  · simp [resolveMatrixServer, hnone, hfb]
  · rcases hfail with hst | hms | hms
    · simp [resolveMatrixServer, hresp, hst, hfb]
    · by_cases h2 : resp.statusCode = 200 <;>
        simp [resolveMatrixServer, hresp, h2, hms, hfb]
    · by_cases h2 : resp.statusCode = 200 <;>
        simp [resolveMatrixServer, hresp, h2, hms, hfb]

theorem srvFallback_fst_of_srvFails (env : NetEnv) (server : Str)
    (hsrv : srvFails env server) :
    (srvFallback env server).1 = Except.ok (server ++ strLit ":8448") := by
  rcases hsrv with h | h <;> simp [srvFallback, h]

theorem srvFallback_isOk (env : NetEnv) (server : Str) :
    ∃ t, (srvFallback env server).1 = Except.ok t := by
  cases h : env.lookupSRV (strLit "matrix") (strLit "tcp") server with
  | none => exact ⟨server ++ strLit ":8448", by simp [srvFallback, h]⟩
  | some l =>
    cases l with
    | nil => exact ⟨server ++ strLit ":8448", by simp [srvFallback, h]⟩
    | cons r rs =>
      exact ⟨goTrim r.target '.' ++ strLit ":" ++ natStr r.port, by simp [srvFallback, h]⟩

theorem resolveMatrixServer_isOk (env : NetEnv) (server : Str) :
    ∃ t, (resolveMatrixServer env server).1 = Except.ok t := by
  rcases hfb : srvFallback env server with ⟨fres, fcalls⟩
  obtain ⟨t0, ht0⟩ := srvFallback_isOk env server
  rw [hfb] at ht0
  simp only at ht0
  cases hg : env.httpGet (wellKnownReq server) with
  | none => exact ⟨t0, by simp [resolveMatrixServer, hg, hfb, ht0]⟩
  | some resp =>
    by_cases hst : resp.statusCode = 200
    · cases hms : resp.bodyMServer with
      | none => exact ⟨t0, by simp [resolveMatrixServer, hg, hfb, hst, hms, ht0]⟩
      | some s =>
        by_cases hs : s = []
        · exact ⟨t0, by simp [resolveMatrixServer, hg, hfb, hst, hms, hs, ht0]⟩
        · exact ⟨s, by simp [resolveMatrixServer, hg, hst, hms, hs]⟩
    · exact ⟨t0, by simp [resolveMatrixServer, hg, hfb, hst, ht0]⟩

theorem checkServer_classification (env : NetEnv) (server : Str) :
    (checkServer env server).1 = strLit "OK" ∨
    (checkServer env server).1 = strLit "Failed (Unreachable)" := by
  obtain ⟨t, ht⟩ := resolveMatrixServer_isOk env server
  rcases hres : resolveMatrixServer env server with ⟨res, calls⟩
  rw [hres] at ht
  simp only at ht
  subst ht
  rcases hon : checkServerOnline env t with ⟨b, pcalls⟩
  cases b
  · right
    simp [checkServer, hres, hon]
  · left
    simp [checkServer, hres, hon]

theorem memberLoop_snd_eq (env : NetEnv) (ms : List Str) :
    (memberLoop env ms).2 = failedEntries env ms := by
  induction ms with
  | nil => rfl
  | cons u rest ih =>
    rcases h : memberLoop env rest with ⟨ss, fs⟩
    rw [h] at ih
    simp only at ih
    by_cases hf :
        goStartsWith ((checkServer env (extractDomain u)).1) (strLit "Failed") = true
    · simp [memberLoop, failedEntries, List.filterMap_cons, h, hf, ih]
    · simp only [Bool.not_eq_true] at hf
      simp [memberLoop, failedEntries, List.filterMap_cons, h, hf, ih]

/-! ## Concrete environments used by counterexamples and witnesses -/

/-- Every URL answers 201 Created with a valid well-known body. -/
def envC1cex : NetEnv :=
  ⟨fun _ => some ⟨201, some (strLit "matrix.example.org:443"), false⟩, fun _ _ _ => none⟩

/-- Every URL answers 200 with a valid well-known body. -/
def envC1wit : NetEnv :=
  ⟨fun _ => some ⟨200, some (strLit "matrix.example.org:443"), false⟩, fun _ _ _ => none⟩

/-- HTTP down; SRV answers with one record whose target has a leading dot. -/
def envC2cex : NetEnv :=
  ⟨fun _ => none, fun _ _ _ => some [⟨strLit ".example.org", 8448⟩]⟩

/-- HTTP down; SRV answers with one record whose target has a trailing dot. -/
def envC2wit : NetEnv :=
  ⟨fun _ => none, fun _ _ _ => some [⟨strLit "srv.example.org.", 8443⟩]⟩

/-- Probe requests (the ones carrying the 5-second timeout) answer 404 with a
JSON-object body; everything else is down. -/
def envC10wit : NetEnv :=
  ⟨fun req => if req.timeoutSeconds = some 5 then some ⟨404, none, true⟩ else none,
   fun _ _ _ => none⟩

/-! ## C1: well-known delegation short-circuits -/

/-- Claim C1 as stated is false: a response with the success status 201 and a
valid non-empty `m.server` body is not accepted — the code requires status
exactly 200, so here it falls through (the SRV lookup IS invoked, appearing in
the call trace) and returns the default, not the delegated value. -/
theorem resolve_wellKnown_success_status_cex :
    (resolveMatrixServer envC1cex (strLit "example.com")).1 =
      Except.ok (strLit "example.com:8448") ∧
    strLit "example.com:8448" ≠ strLit "matrix.example.org:443" ∧
    (resolveMatrixServer envC1cex (strLit "example.com")).2 =
      [NetCall.httpGet (wellKnownReq (strLit "example.com")),
       NetCall.lookupSRV (strLit "matrix") (strLit "tcp") (strLit "example.com")] :=
  ⟨rfl, by decide, rfl⟩

/-- Claim C1 (amended: "success status" is status exactly 200): whenever the
well-known GET returns status 200 with a body decoding to a non-empty
`m.server` string, `resolveMatrixServer` returns exactly that string, and its
call trace is the single well-known GET — the SRV lookup and the `:8448`
default are never invoked. -/
theorem resolve_wellKnown_delegation (env : NetEnv) (server s : Str)
    (resp : HttpResponse)
    (hget : env.httpGet (wellKnownReq server) = some resp)
    (hstatus : resp.statusCode = 200)
    (hbody : resp.bodyMServer = some s)
    (hne : s ≠ []) :
    resolveMatrixServer env server =
      (Except.ok s, [NetCall.httpGet (wellKnownReq server)]) := by
  simp [resolveMatrixServer, hget, hstatus, hbody, hne]

/-- Claim C1 witness: a concrete 200 well-known answer is returned verbatim
with a single-call trace. -/
theorem resolve_wellKnown_delegation_witness :
    resolveMatrixServer envC1wit (strLit "example.com") =
      (Except.ok (strLit "matrix.example.org:443"),
       [NetCall.httpGet (wellKnownReq (strLit "example.com"))]) :=
  resolve_wellKnown_delegation envC1wit (strLit "example.com")
    (strLit "matrix.example.org:443")
    ⟨200, some (strLit "matrix.example.org:443"), false⟩ rfl rfl rfl (by decide)

/-! ## C2: SRV fallback uses the first record -/

/-- Claim C2 as stated is false: the code applies `strings.Trim(target, ".")`,
which strips leading dots as well, while the claim strips trailing dots only.
With first SRV target `".example.org"` the code yields `"example.org:8448"`,
but the claim demands `".example.org:8448"`. -/
theorem resolve_srv_trim_cex :
    (resolveMatrixServer envC2cex (strLit "example.com")).1 =
      Except.ok (strLit "example.org:8448") ∧
    specStripTrailing (strLit ".example.org") '.' ++ strLit ":" ++ natStr 8448 =
      strLit ".example.org:8448" ∧
    strLit "example.org:8448" ≠ strLit ".example.org:8448" :=
  ⟨rfl, by decide, by decide⟩

/-- Claim C2 (amended: leading and trailing dots are both stripped): when the
well-known step fails and the SRV lookup returns at least one record, the
resolver returns `{Trim(target, dots)}:{port}` of the first record. -/
theorem resolve_srv_first_record (env : NetEnv) (server : Str)
    (r : SRVRecord) (rs : List SRVRecord)
    (hwk : wellKnownFails env server)
    (hsrv : env.lookupSRV (strLit "matrix") (strLit "tcp") server = some (r :: rs)) :
    (resolveMatrixServer env server).1 =
      Except.ok (goTrim r.target '.' ++ strLit ":" ++ natStr r.port) := by
  rw [resolve_fst_of_wellKnownFails env server hwk]
  simp [srvFallback, hsrv]

/-- Claim C2 witness: concrete SRV fallback with a trailing-dot target. -/
theorem resolve_srv_first_record_witness :
    (resolveMatrixServer envC2wit (strLit "example.com")).1 =
      Except.ok (strLit "srv.example.org:8443") :=
  (resolve_srv_first_record envC2wit (strLit "example.com")
      ⟨strLit "srv.example.org.", 8443⟩ [] (Or.inl rfl) rfl).trans
    (congrArg Except.ok (by decide))

/-! ## C3: the resolver is total -/

/-- Claim C3: for every oracle and domain the resolver returns a target and
never an error, so `checkServer` only ever classifies `"OK"` or
`"Failed (Unreachable)"` — the delegation-failure branch is unreachable — and
when both the well-known and the SRV step fail the result is `{domain}:8448`. -/
theorem resolver_total (env : NetEnv) (server : Str) :
    (∃ t, (resolveMatrixServer env server).1 = Except.ok t) ∧
    ((checkServer env server).1 = strLit "OK" ∨
     (checkServer env server).1 = strLit "Failed (Unreachable)") ∧
    (wellKnownFails env server → srvFails env server →
      (resolveMatrixServer env server).1 = Except.ok (server ++ strLit ":8448")) := by
  refine ⟨resolveMatrixServer_isOk env server, checkServer_classification env server, ?_⟩
  intro hwk hsrv
  rw [resolve_fst_of_wellKnownFails env server hwk]
  exact srvFallback_fst_of_srvFails env server hsrv

/-- Claim C3 witness: with every network operation failing, the resolver
still returns `example.com:8448` and the check classifies unreachable. -/
theorem resolver_total_witness :
    (resolveMatrixServer envAllDown (strLit "example.com")).1 =
      Except.ok (strLit "example.com:8448") ∧
    (checkServer envAllDown (strLit "example.com")).1 = strLit "Failed (Unreachable)" :=
  ⟨(resolver_total envAllDown (strLit "example.com")).2.2 (Or.inl rfl) (Or.inl rfl),
   by decide⟩

/-! ## C4: extractDomain -/

/-- Claim C4 as stated is false: on an identifier with two colons the code
returns only the segment between the first and second colon, not everything
after the first colon. -/
theorem extractDomain_multi_colon_cex :
    extractDomain (strLit "alice:example.org:8448") = strLit "example.org" ∧
    strLit "example.org" ≠ strLit "example.org:8448" :=
  ⟨by decide, by decide⟩

/-- Claim C4 (amended): `extractDomain` returns the second field of the
colon-split — the substring between the first colon and the next colon (or the
end when there is no second colon) — and the empty string when the input has
no colon; in particular the claim's two examples hold. -/
theorem extractDomain_second_segment (a b rest : Str)
    (ha : ':' ∉ a) (hb : ':' ∉ b) :
    extractDomain (a ++ ':' :: b) = b ∧
    extractDomain (a ++ ':' :: (b ++ ':' :: rest)) = b ∧
    extractDomain a = [] := by
  refine ⟨?_, ?_, ?_⟩
  · simp [extractDomain, goSplitChar_append b ha, goSplitChar_not_mem hb]
  · simp [extractDomain, goSplitChar_append _ ha, goSplitChar_append _ hb]
  · simp [extractDomain, goSplitChar_not_mem ha]

/-- Claim C4 witness: the amended statement at `"alice:example.org:8448"`
(and `"alice"`). -/
theorem extractDomain_second_segment_witness :
    extractDomain (strLit "alice" ++ ':' :: strLit "example.org") =
      strLit "example.org" ∧
    extractDomain
        (strLit "alice" ++ ':' :: (strLit "example.org" ++ ':' :: strLit "8448")) =
      strLit "example.org" ∧
    extractDomain (strLit "alice") = [] :=
  extractDomain_second_segment (strLit "alice") (strLit "example.org")
    (strLit "8448") (by decide) (by decide)

/-! ## C5: members with empty domains are not skipped -/

/-- Claim C5 as stated is false: a member identifier without a colon yields
the empty domain, which IS resolved and probed (nonempty call trace) and DOES
contribute a `" - Failed (Unreachable)"` line to both the status list and the
failure list. -/
theorem memberLoop_empty_domain_cex :
    extractDomain (strLit "alice") = [] ∧
    memberLoop envAllDown [strLit "alice"] =
      ([strLit " - Failed (Unreachable)"], [strLit " - Failed (Unreachable)"]) ∧
    (checkServer envAllDown []).2 ≠ [] :=
  ⟨by decide, by decide, by decide⟩

/-- Claim C5 (amended): no member is excluded — every member, including those
whose identifier has no colon and therefore yields the empty domain, is
checked, contributing exactly one `"{domain} - {status}"` entry to the room's
status list. -/
theorem memberLoop_no_skip (env : NetEnv) (ms : List Str) :
    (memberLoop env ms).1 =
      ms.map (fun u =>
        statusLine (extractDomain u) ((checkServer env (extractDomain u)).1)) := by
  induction ms with
  | nil => rfl
  | cons u rest ih =>
    rcases h : memberLoop env rest with ⟨ss, fs⟩
    rw [h] at ih
    simp only at ih
    simp [memberLoop, h, ih]

/-! ## C6: the reachability probe -/

/-- Claim C6: the probe issues exactly one GET — to
`https://{target}/_matrix/federation/v1/version` with the 5-second-timeout
client, no retries — and returns true iff a response was received whose body
decodes as a JSON object; transport errors, timeouts and non-JSON bodies give
false. -/
theorem probe_spec (env : NetEnv) (target : Str) :
    (checkServerOnline env target).2 = [NetCall.httpGet (versionReq target)] ∧
    ((checkServerOnline env target).1 = true ↔
      ∃ resp, env.httpGet (versionReq target) = some resp ∧
        resp.bodyIsJsonObject = true) := by
  cases h : env.httpGet (versionReq target) with
  | none => exact ⟨by simp [checkServerOnline, h], by simp [checkServerOnline, h]⟩
  | some resp => exact ⟨by simp [checkServerOnline, h], by simp [checkServerOnline, h]⟩

/-! ## C7: one message per swept room -/

/-- Claim C7: for a room that is actually swept (not the log room, member
fetch succeeded) exactly one message is sent to the log room: the failure
message built from only the failed `{domain} - {status}` lines when any
member's check failed, else the single all-OK line; the full status list is
never sent. -/
theorem processRoom_one_message (env : NetEnv) (oracle : RoomOracle)
    (logRoom roomID : Str) (members : List Str)
    (hne : roomID ≠ logRoom)
    (hm : oracle.joinedMembers roomID = some members) :
    processRoom env oracle logRoom roomID =
      [(logRoom,
        if failedEntries env members = []
        then allOkMessage (roomDescription oracle roomID)
        else failedMessage (roomDescription oracle roomID)
          (failedEntries env members))] := by
  unfold processRoom
  rw [if_neg hne, hm]
  unfold roomReport
  simp only [memberLoop_snd_eq env members]
  by_cases hfe : failedEntries env members = []
  · simp [hfe]
  · have hlen : 0 < (failedEntries env members).length := List.length_pos.mpr hfe
    simp [hfe, hlen]

/-- Claim C7 witness: a concrete room with one failing member produces
exactly the one failure message. -/
theorem processRoom_one_message_witness :
    processRoom envAllDown
      ⟨fun _ => (strLit "#alias", strLit "Title"), fun _ => some [strLit "u1:bad.org"]⟩
      (strLit "!log:x") (strLit "!a:x") =
      [(strLit "!log:x",
        strLit "Failed servers in room #alias - Title ( !a:x ):\nbad.org - Failed (Unreachable)")] := by
  rw [processRoom_one_message envAllDown
    ⟨fun _ => (strLit "#alias", strLit "Title"), fun _ => some [strLit "u1:bad.org"]⟩
    (strLit "!log:x") (strLit "!a:x") [strLit "u1:bad.org"] (by decide) rfl]
  decide

/-! ## C8: duplicate failure lines -/

/-- Claim C8 is contradicted by the code: two members sharing the failing
domain `bad.org` produce two identical lines in the reported failure list —
the code deduplicates nothing. -/
theorem memberLoop_duplicate_lines :
    (memberLoop envAllDown [strLit "u1:bad.org", strLit "u2:bad.org"]).2 =
      [strLit "bad.org - Failed (Unreachable)",
       strLit "bad.org - Failed (Unreachable)"] := by
  decide

/-! ## C9: the log room is skipped -/

/-- Claim C9: a sweep behaves as if every occurrence of the log room were
removed from the joined-rooms list, and its outcome is independent of the
collaborator's member list and metadata for the log room — the log room's
members are never fetched, so none of its domains are resolved or probed and
no report is generated for it. -/
theorem sweep_skips_log_room (env : NetEnv) (oracle oracle2 : RoomOracle)
    (logRoom : Str) (rooms : List Str)
    (h : ∀ r, r ≠ logRoom →
      oracle.joinedMembers r = oracle2.joinedMembers r ∧
      oracle.details r = oracle2.details r) :
    sweepRooms env oracle logRoom rooms =
      sweepRooms env oracle logRoom (rooms.filter (fun r => decide (r ≠ logRoom))) ∧
    sweepRooms env oracle logRoom rooms = sweepRooms env oracle2 logRoom rooms := by
  induction rooms with
  | nil => exact ⟨rfl, rfl⟩
  | cons r rs ih =>
    by_cases hr : r = logRoom
    · subst hr
      constructor
      · simp [sweepRooms, processRoom, List.filter, ih.1]
      · simp [sweepRooms, processRoom, ih.2]
    · obtain ⟨hm, hd⟩ := h r hr
      have hpr : processRoom env oracle logRoom r = processRoom env oracle2 logRoom r := by
        unfold processRoom roomDescription roomReport
        rw [if_neg hr, if_neg hr, hm, hd]
      constructor
      · simp [sweepRooms, List.filter, hr, ih.1]
      · simp [sweepRooms, ih.2, hpr]

/-- Claim C9 witness: with the log room present in the joined list, the sweep
equals the sweep of the list without it, and changing what the collaborator
would answer for the log room changes nothing. -/
theorem sweep_skips_log_room_witness :
    sweepRooms envAllDown
        ⟨fun _ => (strLit "#a", strLit "A"), fun _ => some [strLit "u:bad.org"]⟩
        (strLit "!log:x") [strLit "!log:x", strLit "!a:x"] =
      sweepRooms envAllDown
        ⟨fun _ => (strLit "#a", strLit "A"), fun _ => some [strLit "u:bad.org"]⟩
        (strLit "!log:x")
        (([strLit "!log:x", strLit "!a:x"]).filter
          (fun r => decide (r ≠ strLit "!log:x"))) ∧
    sweepRooms envAllDown
        ⟨fun _ => (strLit "#a", strLit "A"), fun _ => some [strLit "u:bad.org"]⟩
        (strLit "!log:x") [strLit "!log:x", strLit "!a:x"] =
      sweepRooms envAllDown
        ⟨fun r => if r = strLit "!log:x" then (strLit "#z", strLit "Z")
                  else (strLit "#a", strLit "A"),
         fun r => if r = strLit "!log:x" then none
                  else some [strLit "u:bad.org"]⟩
        (strLit "!log:x") [strLit "!log:x", strLit "!a:x"] :=
  sweep_skips_log_room envAllDown
    ⟨fun _ => (strLit "#a", strLit "A"), fun _ => some [strLit "u:bad.org"]⟩
    ⟨fun r => if r = strLit "!log:x" then (strLit "#z", strLit "Z")
              else (strLit "#a", strLit "A"),
     fun r => if r = strLit "!log:x" then none
              else some [strLit "u:bad.org"]⟩
    (strLit "!log:x") [strLit "!log:x", strLit "!a:x"]
    (fun r hr => by simp [hr])

/-! ## C10: the HTTP status code of the probe is ignored -/

/-- Claim C10: once the probe receives a response, the status code plays no
role — any response (404, 500, anything) whose body decodes as a JSON object
makes `checkServerOnline` true and classifies the domain `"OK"`. -/
theorem probe_ignores_status (env : NetEnv) (server target : Str)
    (resp : HttpResponse)
    (hres : (resolveMatrixServer env server).1 = Except.ok target)
    (hresp : env.httpGet (versionReq target) = some resp)
    (hjson : resp.bodyIsJsonObject = true) :
    (checkServerOnline env target).1 = true ∧
    (checkServer env server).1 = strLit "OK" := by
  have hon : (checkServerOnline env target).1 = true := by
    simp [checkServerOnline, hresp, hjson]
  refine ⟨hon, ?_⟩
  rcases h : resolveMatrixServer env server with ⟨res, calls⟩
  rw [h] at hres
  simp only at hres
  subst hres
  rcases hco : checkServerOnline env target with ⟨b, pc⟩
  rw [hco] at hon
  simp only at hon
  subst hon
  simp [checkServer, h, hco]

/-- Claim C10 witness: a 404 response with JSON-object body classifies OK. -/
theorem probe_ignores_status_witness :
    (checkServer envC10wit (strLit "example.com")).1 = strLit "OK" :=
  (probe_ignores_status envC10wit (strLit "example.com")
    (strLit "example.com:8448") ⟨404, none, true⟩ rfl rfl rfl).2

end MatrixHealth
